import Mathlib

/-!
Verification of the effort-expense prediction and correction pipeline.

A shallow embedding of the core of the repository:
* `prepare_features` numeric imputation (fillna with the column median),
* `CatBoostEffortModel.train_model` (non-null-target check, target capping,
  interquartile outlier filtering),
* `CatBoostEffortModel.predict` (classification of rows, pass-1 clamping and
  per-category policy, pass-2 validation sweep, pass-3 final clamp),
* `ModelStorage.save_model` / `delete_model` / `get_active_model`
  (SQLite registry, modelled with a logical clock for the timestamps),
* `DataProcessor.load_model` / `train_model` / `predict_effort_expenses`
  (the orchestrator and its trained-model flag).

Real numbers of the source are modelled by `ℚ`; nullable numeric cells by
`Option ℚ`.  The fitted regressor is abstracted as a function `ℕ → ℚ` from an
opaque feature payload to the raw prediction, since the claims quantify over
all possible model outputs.
-/

namespace EffortSystem

/-- `np.clip(x, lo, hi)` as computed by numpy: `min (max x lo) hi`. -/
def clip (x lo hi : ℚ) : ℚ := min (max x lo) hi

/-- Pandas comparison `cell > c` on a nullable cell: `NaN > c` is `False`. -/
def optGt (o : Option ℚ) (c : ℚ) : Bool :=
  match o with
  | some v => decide (c < v)
  | none => false

/-- Pandas `Series.median()` on the non-null values of a column:
`NaN` (here `none`) on an empty column, middle element of the sorted values for
odd length, mean of the two middle elements for even length. -/
def pandasMedian (xs : List ℚ) : Option ℚ :=
  let s := List.insertionSort (fun a b => a ≤ b) xs
  if s.length = 0 then none
  else if s.length % 2 = 1 then some (s.getD (s.length / 2) 0)
  else some ((s.getD (s.length / 2 - 1) 0 + s.getD (s.length / 2) 0) / 2)

/-- Pandas `Series.quantile(q)` with the default linear interpolation:
with the values sorted ascending and `pos = q * (n - 1)`, interpolate between
the elements at `⌊pos⌋` and `⌊pos⌋ + 1`.  Junk value `0` on an empty column
(the source never takes a quantile of an empty series). -/
def pandasQuantile (xs : List ℚ) (q : ℚ) : ℚ :=
  let s := List.insertionSort (fun a b => a ≤ b) xs
  let n := s.length
  if n = 0 then 0
  else
    let pos : ℚ := q * ((n : ℚ) - 1)
    let i : ℕ := (Rat.floor pos).toNat
    let frac : ℚ := pos - (i : ℚ)
    let lo := s.getD i 0
    let hi := s.getD (min (i + 1) (n - 1)) 0
    lo + frac * (hi - lo)

/-- One column of nullable numeric cells, as handled by
`prepare_features`: `df[col] = df[col].fillna(df[col].median())`.
The median is the median of the non-null cells of the column of the table
currently being processed; when every cell is null the median is `NaN` and
`fillna` leaves the column unchanged. -/
def fillna_median (col : List (Option ℚ)) : List (Option ℚ) :=
  match pandasMedian (col.filterMap id) with
  | none => col
  | some m => col.map (fun o => some (o.getD m))

/-! ### Prediction (`CatBoostEffortModel.predict`) -/

/-- An input row for `predict`: the nullable `effortExpense` target and an
opaque feature payload (everything the regressor reads). -/
structure PredRow where
  target : Option ℚ
  features : ℕ
deriving DecidableEq, Repr

/-- An output row of `predict`: the original target, the three flag columns
added by the classification step, and the two result columns. -/
structure OutRow where
  target : Option ℚ
  is_missing_effort : Bool
  is_over_limit : Bool
  needs_prediction : Bool
  effortExpense_predicted : Option ℚ
  effortExpense_final : Option ℚ
deriving DecidableEq, Repr

/-- Classification and initialization:
`is_missing_effort = target.isna()`, `is_over_limit = target > effort_limit`,
`needs_prediction = is_missing_effort | is_over_limit`, and both result
columns start as copies of the target column. -/
def classifyRow (limit : ℚ) (r : PredRow) : OutRow :=
  let miss := r.target.isNone
  let over := optGt r.target limit
  { target := r.target
    is_missing_effort := miss
    is_over_limit := over
    needs_prediction := miss || over
    effortExpense_predicted := r.target
    effortExpense_final := r.target }

/-- Pass 1 and the per-category policy for one row.  For a row that needs
prediction the raw regressor output is first clamped by
`np.clip(predictions, 0, effort_limit)`; a missing row then gets
`predicted = final = min(clipped, effort_limit)`, an over-limit row gets
`predicted = min(clipped, effort_limit)` and `final = effort_limit`. -/
def applyPred (limit : ℚ) (model : ℕ → ℚ) (r : PredRow) : OutRow :=
  let c := classifyRow limit r
  if c.needs_prediction then
    let p := clip (model r.features) 0 limit
    if c.is_missing_effort then
      { c with
        effortExpense_predicted := some (min p limit)
        effortExpense_final := some (min p limit) }
    else
      { c with
        effortExpense_predicted := some (min p limit)
        effortExpense_final := some limit }
  else c

/-- Pass-2 fix-up for one row: a row in `high_predictions`
(`needs_prediction` and `effortExpense_predicted > effort_limit`) has both
result columns force-set to the limit; any other row is untouched. -/
def sweepRow (limit : ℚ) (r : OutRow) : OutRow :=
  if r.needs_prediction && optGt r.effortExpense_predicted limit then
    { r with
      effortExpense_predicted := some limit
      effortExpense_final := some limit }
  else r

/-- Pass 2: the validation sweep over the predicted column. -/
def pass2 (limit : ℚ) (t : List OutRow) : List OutRow :=
  t.map (sweepRow limit)

/-- `clip(upper=effort_limit)` on the final column of one row; a null cell
stays null. -/
def clampFinalRow (limit : ℚ) (r : OutRow) : OutRow :=
  { r with effortExpense_final := r.effortExpense_final.map (fun v => min v limit) }

/-- Pass 3: if any final value exceeds the limit, clamp the whole final
column (`df['effortExpense_final'].clip(upper=effort_limit)`), otherwise the
table is returned as is. -/
def pass3 (limit : ℚ) (t : List OutRow) : List OutRow :=
  if t.any (fun r => optGt r.effortExpense_final limit) then
    t.map (clampFinalRow limit)
  else t

/-- `CatBoostEffortModel.predict`: classify and initialize every row, apply
the clamped model output according to the per-category policy, then run the
pass-2 validation sweep and the pass-3 final clamp. -/
def predict (limit : ℚ) (model : ℕ → ℚ) (table : List PredRow) : List OutRow :=
  pass3 limit (pass2 limit (table.map (applyPred limit model)))

/-! ### Training (`CatBoostEffortModel.train_model`) -/

/-- An input row for training: nullable target plus opaque features. -/
structure TrainRow where
  target : Option ℚ
  features : ℕ
deriving DecidableEq, Repr

/-- The error raised when fewer than 10 rows carry a non-null target. -/
inductive TrainError where
  | insufficientData
deriving DecidableEq, Repr

/-- Pandas boolean-mask selection `X[mask]`: keep the elements whose mask
entry is `true`. -/
def maskFilter {α : Type} (xs : List α) (mask : List Bool) : List α :=
  ((xs.zip mask).filter (fun p => p.2)).map (fun p => p.1)

/-- The data-preparation prefix of `CatBoostEffortModel.train_model`:
drop rows with a null target, raise when fewer than 10 remain, cap the target
at the effort limit, compute the interquartile bounds on the capped target and
keep only the rows inside them.  Returns the feature and capped-target columns
handed to the train/test split and the regressor fit (abstracted away). -/
def train_model (limit : ℚ) (df : List TrainRow) :
    Except TrainError (List ℕ × List ℚ) :=
  let train_data := df.filter (fun r => r.target.isSome)
  if train_data.length < 10 then .error .insufficientData
  else
    let X := train_data.map (fun r => r.features)
    let y := train_data.map (fun r => r.target.getD 0)
    let y_capped := y.map (fun v => min v limit)
    let q1 := pandasQuantile y_capped (1 / 4)
    let q3 := pandasQuantile y_capped (3 / 4)
    let iqr := q3 - q1
    let lower_bound := q1 - 3 / 2 * iqr
    let upper_bound := q3 + 3 / 2 * iqr
    let outlier_mask := y_capped.map (fun v => decide (lower_bound ≤ v) && decide (v ≤ upper_bound))
    .ok (maskFilter X outlier_mask, maskFilter y_capped outlier_mask)

/-! ### Model registry (`ModelStorage`) -/

/-- A row of the `models` table.  `updated_at` is a logical timestamp: the
SQLite `CURRENT_TIMESTAMP` values are strictly increasing across operations in
this model, which matches their role as a recency order. -/
structure RegEntry where
  model_id : ℕ
  model_name : String
  file_path : String
  updated_at : ℕ
  is_active : Bool
deriving DecidableEq, Repr

/-- The registry state: the `models` table plus the logical clock. -/
structure RegState where
  entries : List RegEntry
  clock : ℕ
deriving DecidableEq, Repr

/-- A fresh database: no rows. -/
def initialRegState : RegState := ⟨[], 0⟩

/-- `ModelStorage.save_model`: in one transaction set `is_active = 0` on every
row, then `INSERT OR REPLACE` the new row (replacing any row with the same
unique `model_name`) with `is_active = 1` and a fresh timestamp; returns the
new row id. -/
def save_model (st : RegState) (name path : String) : RegState × ℕ :=
  let deactivated := st.entries.map (fun e => { e with is_active := false })
  let kept := deactivated.filter (fun e => e.model_name ≠ name)
  let ts := st.clock + 1
  let entry : RegEntry :=
    { model_id := ts, model_name := name, file_path := path
      updated_at := ts, is_active := true }
  (⟨kept ++ [entry], ts⟩, ts)

/-- `ModelStorage.delete_model`: if a row with the given id exists, delete it
(and its artifact file) and return `true`; otherwise return `false`.  No other
row is touched, in particular no row is re-activated. -/
def delete_model (st : RegState) (id : ℕ) : RegState × Bool :=
  if st.entries.any (fun e => e.model_id == id) then
    (⟨st.entries.filter (fun e => e.model_id ≠ id), st.clock⟩, true)
  else (st, false)

/-- The rows with `is_active = 1`. -/
def activeEntries (st : RegState) : List RegEntry :=
  st.entries.filter (fun e => e.is_active)

/-- A registry operation issued by a client. -/
inductive RegOp where
  | save (name path : String)
  | del (id : ℕ)
deriving DecidableEq, Repr

/-- Apply one registry operation. -/
def applyOp (st : RegState) : RegOp → RegState
  | .save n p => (save_model st n p).1
  | .del i => (delete_model st i).1

/-- Run a sequence of registry operations on a fresh database. -/
def runOps (ops : List RegOp) : RegState :=
  ops.foldl applyOp initialRegState

/-- Pick the entry with the greatest `updated_at` (the earliest such entry on
a tie), i.e. the head of `ORDER BY updated_at DESC LIMIT 1`. -/
def pickLatest : List RegEntry → Option RegEntry
  | [] => none
  | e :: t =>
    match pickLatest t with
    | none => some e
    | some b => if e.updated_at < b.updated_at then some b else some e

/-- `ModelStorage.get_active_model`:
`SELECT * FROM models WHERE is_active = 1 ORDER BY updated_at DESC LIMIT 1`. -/
def get_active_model (st : RegState) : Option RegEntry :=
  pickLatest (activeEntries st)

/-! ### Orchestrator (`DataProcessor`) -/

/-- The error raised by `DataProcessor.load_model` when no file is given and
the registry has no active entry. -/
inductive LoadErr where
  | noActiveModel
deriving DecidableEq, Repr

/-- The error raised by `DataProcessor.predict_effort_expenses` when no model
has been trained or loaded. -/
inductive PredictErr where
  | modelNotTrained
deriving DecidableEq, Repr

/-- The orchestrator state: its registry, the `is_model_trained` flag, and the
file path of the artifact currently loaded into the in-memory model. -/
structure OrchState where
  registry : RegState
  is_model_trained : Bool
  loaded_path : Option String
deriving DecidableEq, Repr

/-- `DataProcessor.load_model`: with an explicit file path, load it; with
none, look up the active registry entry and load its `file_path`, raising
`NoActiveModelError` (and leaving the state untouched) when there is none.  A
successful load sets `is_model_trained`. -/
def load_model (st : OrchState) (fp : Option String) : OrchState × Option LoadErr :=
  match fp with
  | some f => ({ st with loaded_path := some f, is_model_trained := true }, none)
  | none =>
    match get_active_model st.registry with
    | some e => ({ st with loaded_path := some e.file_path, is_model_trained := true }, none)
    | none => (st, some .noActiveModel)

/-- `DataProcessor.train_model`: delegate to the model's training; on success
set `is_model_trained`, on failure propagate the error with the state
untouched. -/
def train_model_op (st : OrchState) (limit : ℚ) (df : List TrainRow) :
    OrchState × Option TrainError :=
  match train_model limit df with
  | .ok _ => ({ st with is_model_trained := true }, none)
  | .error e => (st, some e)

/-- `DataProcessor.predict_effort_expenses`: raise unless `is_model_trained`,
otherwise return the model's corrected table. -/
def predict_effort_expenses (st : OrchState) (limit : ℚ) (model : ℕ → ℚ)
    (table : List PredRow) : Except PredictErr (List OutRow) :=
  if st.is_model_trained then .ok (predict limit model table)
  else .error .modelNotTrained

/-! ### Lemmas on the prediction pipeline -/

lemma clip_le_hi (x lo hi : ℚ) : clip x lo hi ≤ hi := min_le_right _ _

lemma applyPred_none (limit : ℚ) (model : ℕ → ℚ) (r : PredRow)
    (h : r.target = none) :
    applyPred limit model r =
      { target := none, is_missing_effort := true, is_over_limit := false,
        needs_prediction := true,
        effortExpense_predicted := some (min (clip (model r.features) 0 limit) limit),
        effortExpense_final := some (min (clip (model r.features) 0 limit) limit) } := by
  simp [applyPred, classifyRow, optGt, h]

lemma applyPred_over (limit : ℚ) (model : ℕ → ℚ) (r : PredRow) (t : ℚ)
    (h : r.target = some t) (ht : limit < t) :
    applyPred limit model r =
      { target := some t, is_missing_effort := false, is_over_limit := true,
        needs_prediction := true,
        effortExpense_predicted := some (min (clip (model r.features) 0 limit) limit),
        effortExpense_final := some limit } := by
  simp [applyPred, classifyRow, optGt, h, ht]

lemma applyPred_normal (limit : ℚ) (model : ℕ → ℚ) (r : PredRow) (t : ℚ)
    (h : r.target = some t) (ht : ¬ limit < t) :
    applyPred limit model r =
      { target := some t, is_missing_effort := false, is_over_limit := false,
        needs_prediction := false,
        effortExpense_predicted := some t,
        effortExpense_final := some t } := by
  simp [applyPred, classifyRow, optGt, h, ht]

lemma applyPred_final_bound (limit : ℚ) (model : ℕ → ℚ) (r : PredRow) :
    ∃ v, (applyPred limit model r).effortExpense_final = some v ∧ v ≤ limit := by
  cases h : r.target with
  | none =>
      rw [applyPred_none limit model r h]
      exact ⟨_, rfl, min_le_right _ _⟩
  | some t =>
      by_cases ht : limit < t
      · rw [applyPred_over limit model r t h ht]
        exact ⟨limit, rfl, le_refl _⟩
      · rw [applyPred_normal limit model r t h ht]
        exact ⟨t, rfl, le_of_not_lt ht⟩

lemma applyPred_pred_bound (limit : ℚ) (model : ℕ → ℚ) (r : PredRow) :
    ∃ v, (applyPred limit model r).effortExpense_predicted = some v ∧ v ≤ limit := by
  cases h : r.target with
  | none =>
      rw [applyPred_none limit model r h]
      exact ⟨_, rfl, min_le_right _ _⟩
  | some t =>
      by_cases ht : limit < t
      · rw [applyPred_over limit model r t h ht]
        exact ⟨_, rfl, min_le_right _ _⟩
      · rw [applyPred_normal limit model r t h ht]
        exact ⟨t, rfl, le_of_not_lt ht⟩

lemma optGt_applyPred_pred (limit : ℚ) (model : ℕ → ℚ) (r : PredRow) :
    optGt (applyPred limit model r).effortExpense_predicted limit = false := by
  obtain ⟨v, hv, hle⟩ := applyPred_pred_bound limit model r
  rw [hv]
  simp [optGt, not_lt.mpr hle]

lemma optGt_applyPred_final (limit : ℚ) (model : ℕ → ℚ) (r : PredRow) :
    optGt (applyPred limit model r).effortExpense_final limit = false := by
  obtain ⟨v, hv, hle⟩ := applyPred_final_bound limit model r
  rw [hv]
  simp [optGt, not_lt.mpr hle]

lemma sweepRow_applyPred (limit : ℚ) (model : ℕ → ℚ) (r : PredRow) :
    sweepRow limit (applyPred limit model r) = applyPred limit model r := by
  unfold sweepRow
  rw [if_neg]
  simp [optGt_applyPred_pred]

lemma pass2_map_applyPred (limit : ℚ) (model : ℕ → ℚ) (table : List PredRow) :
    pass2 limit (table.map (applyPred limit model)) = table.map (applyPred limit model) := by
  unfold pass2
  rw [List.map_map]
  exact List.map_congr_left (fun r _ => sweepRow_applyPred limit model r)

lemma pass3_map_applyPred (limit : ℚ) (model : ℕ → ℚ) (table : List PredRow) :
    pass3 limit (table.map (applyPred limit model)) = table.map (applyPred limit model) := by
  unfold pass3
  rw [if_neg]
  intro h
  obtain ⟨r, hr, hp⟩ := List.any_eq_true.1 h
  obtain ⟨a, _, rfl⟩ := List.mem_map.1 hr
  rw [optGt_applyPred_final limit model a] at hp
  exact Bool.false_ne_true hp

lemma predict_eq_map (limit : ℚ) (model : ℕ → ℚ) (table : List PredRow) :
    predict limit model table = table.map (applyPred limit model) := by
  rw [predict, pass2_map_applyPred, pass3_map_applyPred]

/-! ### Claim theorems — prediction pipeline -/

/-- C1: for every input table and every row of the table returned by
`predict`, the final corrected effort value (`effortExpense_final`) is less
than or equal to the configured ceiling (`effort_limit`), for every
combination of missing, over-limit and normal rows (the table and the raw
model outputs are universally quantified). -/
theorem ceiling_invariant (limit : ℚ) (model : ℕ → ℚ) (table : List PredRow)
    (r : OutRow) (hr : r ∈ predict limit model table) :
    ∃ v, r.effortExpense_final = some v ∧ v ≤ limit := by
  rw [predict_eq_map] at hr
  obtain ⟨a, _, rfl⟩ := List.mem_map.1 hr
  exact applyPred_final_bound limit model a

/-- Witness for C1 on a concrete table holding a missing, an over-limit and
a normal row, with a raw model output above the ceiling. -/
theorem ceiling_invariant_witness :
    ∃ v, (OutRow.mk (some 45) false true true (some 30) (some 30)).effortExpense_final
        = some v ∧ v ≤ (30 : ℚ) :=
  ceiling_invariant 30 (fun _ => 50)
    [⟨none, 0⟩, ⟨some 45, 1⟩, ⟨some 7, 2⟩]
    (OutRow.mk (some 45) false true true (some 30) (some 30)) (by decide)

/-- C8: the pass-2 validation sweep's force-clamp branch is unreachable:
after pass 1 clamps every raw model output to `[0, ceiling]` and the
per-category policy is applied, the set of rows that need prediction and hold
a predicted value above the ceiling is empty, so the sweep leaves the table
unchanged. -/
theorem validation_sweep_unreachable (limit : ℚ) (model : ℕ → ℚ)
    (table : List PredRow) :
    ((table.map (applyPred limit model)).filter
        (fun r => r.needs_prediction && optGt r.effortExpense_predicted limit)) = []
      ∧ pass2 limit (table.map (applyPred limit model))
          = table.map (applyPred limit model) := by
  constructor
  · rw [List.filter_eq_nil_iff]
    intro r hr
    obtain ⟨a, _, rfl⟩ := List.mem_map.1 hr
    simp [optGt_applyPred_pred]
  · exact pass2_map_applyPred limit model table

/-- C2: for a row whose original target exceeds the ceiling, `predict` sets
the final value to exactly the ceiling regardless of the model's raw output,
while the predicted column for that row holds the model's raw prediction
clamped (to `[0, ceiling]`, hence at most the ceiling), kept for audit
only. -/
theorem over_limit_truncation (limit : ℚ) (model : ℕ → ℚ) (table : List PredRow)
    (i : ℕ) (r : PredRow) (hi : table.get? i = some r) (t : ℚ)
    (ht : r.target = some t) (hover : limit < t) :
    (predict limit model table).get? i =
      some { target := some t, is_missing_effort := false, is_over_limit := true,
             needs_prediction := true,
             effortExpense_predicted := some (clip (model r.features) 0 limit),
             effortExpense_final := some limit }
      ∧ clip (model r.features) 0 limit ≤ limit := by
  constructor
  · rw [predict_eq_map, List.get?_map, hi, Option.map_some',
      applyPred_over limit model r t ht hover,
      min_eq_left (clip_le_hi (model r.features) 0 limit)]
  · exact clip_le_hi _ _ _

/-- Witness for C2: an over-limit row with target 45, ceiling 30 and raw
model output 50. -/
theorem over_limit_truncation_witness :
    ((predict 30 (fun _ => 50) [⟨some 45, 1⟩]).get? 0 =
      some { target := some 45, is_missing_effort := false, is_over_limit := true,
             needs_prediction := true,
             effortExpense_predicted := some (clip 50 0 30),
             effortExpense_final := some (30 : ℚ) })
      ∧ clip 50 0 30 ≤ (30 : ℚ) :=
  over_limit_truncation 30 (fun _ => 50) [⟨some 45, 1⟩] 0 ⟨some 45, 1⟩ rfl 45 rfl
    (by norm_num)

/-- C3: a row whose target is neither null nor above the ceiling
(`needs_prediction` false) passes through `predict` with its final value
exactly equal to the original target; neither the policy step, the pass-2
sweep, nor the pass-3 clamp modifies it. -/
theorem passthrough_invariant (limit : ℚ) (model : ℕ → ℚ) (table : List PredRow)
    (i : ℕ) (r : PredRow) (hi : table.get? i = some r) (t : ℚ)
    (ht : r.target = some t) (hnorm : ¬ limit < t) :
    (predict limit model table).get? i =
      some { target := some t, is_missing_effort := false, is_over_limit := false,
             needs_prediction := false,
             effortExpense_predicted := some t,
             effortExpense_final := some t } := by
  rw [predict_eq_map, List.get?_map, hi, Option.map_some',
    applyPred_normal limit model r t ht hnorm]

/-- Witness for C3: a normal row with target 7 and ceiling 30, with a raw
model output above the ceiling. -/
theorem passthrough_invariant_witness :
    (predict 30 (fun _ => 50) [⟨some 7, 2⟩]).get? 0 =
      some { target := some (7 : ℚ), is_missing_effort := false, is_over_limit := false,
             needs_prediction := false,
             effortExpense_predicted := some (7 : ℚ),
             effortExpense_final := some (7 : ℚ) } :=
  passthrough_invariant 30 (fun _ => 50) [⟨some 7, 2⟩] 0 ⟨some 7, 2⟩ rfl 7 rfl
    (by norm_num)

/-! ### Lemmas on boolean-mask selection -/

lemma maskFilter_map_self {α : Type} (p : α → Bool) (xs : List α) :
    maskFilter xs (xs.map p) = xs.filter p := by
  induction xs with
  | nil => rfl
  | cons a l ih =>
      cases h : p a <;>
        simp only [maskFilter, List.map_cons, List.zip_cons_cons, List.filter_cons, h] <;>
        simpa [maskFilter, List.filter_cons, h] using ih

lemma maskFilter_map_zip {α β : Type} (p : β → Bool) :
    ∀ (xs : List α) (ys : List β), xs.length = ys.length →
      maskFilter xs (ys.map p) =
        ((xs.zip ys).filter (fun q => p q.2)).map (fun q => q.1) := by
  intro xs
  induction xs with
  | nil => intro ys _; rfl
  | cons a l ih =>
      intro ys hlen
      cases ys with
      | nil => simp at hlen
      | cons b m =>
          have hlen2 : l.length = m.length := by simpa using hlen
          cases h : p b <;>
            simp only [maskFilter, List.map_cons, List.zip_cons_cons, List.filter_cons, h] <;>
            simpa [maskFilter, List.filter_cons, h] using ih m hlen2

/-! ### Spec-side characterization of the training data preparation -/

/-- The rows surviving `dropna(subset=['effortExpense'])`. -/
def nonNullRows (df : List TrainRow) : List TrainRow :=
  df.filter (fun r => r.target.isSome)

/-- The non-null targets clipped to the ceiling, one per surviving row. -/
def cappedTargets (limit : ℚ) (df : List TrainRow) : List ℚ :=
  (nonNullRows df).map (fun r => min (r.target.getD 0) limit)

/-- `Q1 − 1.5·IQR` computed on the capped target. -/
def iqrLower (limit : ℚ) (df : List TrainRow) : ℚ :=
  pandasQuantile (cappedTargets limit df) (1 / 4) -
    3 / 2 * (pandasQuantile (cappedTargets limit df) (3 / 4) -
      pandasQuantile (cappedTargets limit df) (1 / 4))

/-- `Q3 + 1.5·IQR` computed on the capped target. -/
def iqrUpper (limit : ℚ) (df : List TrainRow) : ℚ :=
  pandasQuantile (cappedTargets limit df) (3 / 4) +
    3 / 2 * (pandasQuantile (cappedTargets limit df) (3 / 4) -
      pandasQuantile (cappedTargets limit df) (1 / 4))

/-- The zipped (features, capped target) pairs kept by the interquartile
outlier filter. -/
def keptPairs (limit : ℚ) (df : List TrainRow) : List (ℕ × ℚ) :=
  List.filter
    (fun q => decide (iqrLower limit df ≤ q.2) && decide (q.2 ≤ iqrUpper limit df))
    (List.zip ((nonNullRows df).map (fun r => r.features)) (cappedTargets limit df))

lemma train_model_ok_eq (limit : ℚ) (df : List TrainRow)
    (h : ¬ (df.filter (fun r => r.target.isSome)).length < 10) :
    train_model limit df = .ok
      ((keptPairs limit df).map (fun q => q.1),
        (cappedTargets limit df).filter
          (fun v => decide (iqrLower limit df ≤ v) && decide (v ≤ iqrUpper limit df))) := by
  have hcap :
      ((df.filter (fun r => r.target.isSome)).map (fun r => r.target.getD 0)).map
          (fun v => min v limit) = cappedTargets limit df := by
    simp only [cappedTargets, nonNullRows, List.map_map]
    rfl
  have hlen :
      ((df.filter (fun r => r.target.isSome)).map (fun r => r.features)).length
        = (cappedTargets limit df).length := by
    simp [cappedTargets, nonNullRows]
  simp only [train_model]
  rw [if_neg h, hcap, maskFilter_map_zip _ _ _ hlen, maskFilter_map_self]
  simp only [keptPairs, iqrLower, iqrUpper, nonNullRows]

lemma train_model_error_iff (limit : ℚ) (df : List TrainRow) :
    train_model limit df = .error .insufficientData ↔
      (df.filter (fun r => r.target.isSome)).length < 10 := by
  by_cases hlt : (df.filter (fun r => r.target.isSome)).length < 10
  · constructor
    · intro _
      exact hlt
    · intro _
      simp [train_model, hlt]
  · constructor
    · intro he
      rw [train_model_ok_eq limit df hlt] at he
      exact absurd he (by simp)
    · intro hc
      exact absurd hc hlt

/-! ### Claim theorems — training -/

/-- C6: training fails with the insufficient-data error, producing no result,
exactly when fewer than 10 rows have a non-null target after dropping the
null-target rows; with 10 or more such rows it completes and returns the
prepared training data. -/
theorem insufficient_data_boundary (limit : ℚ) (df : List TrainRow) :
    (train_model limit df = .error .insufficientData ↔
      (df.filter (fun r => r.target.isSome)).length < 10) ∧
    (¬ (df.filter (fun r => r.target.isSome)).length < 10 →
      ∃ res, train_model limit df = .ok res) := by
  constructor
  · exact train_model_error_iff limit df
  · intro h
    exact ⟨_, train_model_ok_eq limit df h⟩

/-- Witness for C6: a table with 9 non-null-target rows raises, one with
exactly 10 succeeds (the extra row of the second table has a null target and
is dropped). -/
theorem insufficient_data_boundary_witness :
    (train_model 30 ((List.range 9).map (fun i => TrainRow.mk (some 5) i))
        = .error .insufficientData) ∧
    ∃ res, train_model 30
        (TrainRow.mk none 99 :: (List.range 10).map (fun i => TrainRow.mk (some 5) i))
        = .ok res :=
  ⟨(insufficient_data_boundary 30
      ((List.range 9).map (fun i => TrainRow.mk (some 5) i))).1.2 (by decide),
   (insufficient_data_boundary 30
      (TrainRow.mk none 99 :: (List.range 10).map (fun i => TrainRow.mk (some 5) i))).2
      (by decide)⟩

/-- C7: with at least 10 non-null-target rows, training first clips the
non-null targets to the ceiling without dropping any row (the capped column
has one entry per surviving row), then computes `Q1 − 1.5·IQR` and
`Q3 + 1.5·IQR` on the capped target and keeps exactly the pairs whose capped
target lies inside this closed interval, as the data handed to the split and
fit. -/
theorem capping_and_outlier_filter (limit : ℚ) (df : List TrainRow)
    (h : 10 ≤ (nonNullRows df).length) :
    (cappedTargets limit df).length = (nonNullRows df).length ∧
    train_model limit df = .ok
      ((keptPairs limit df).map (fun q => q.1),
        (cappedTargets limit df).filter
          (fun v => decide (iqrLower limit df ≤ v) && decide (v ≤ iqrUpper limit df))) := by
  refine ⟨List.length_map _ _, train_model_ok_eq limit df ?_⟩
  simp only [nonNullRows] at h
  omega

/-- Witness for C7: a concrete 10-row table (targets 1..9 and 100, ceiling
30); the capped target 30 lies outside the interquartile bounds of the capped
column and is dropped, the others are kept. -/
theorem capping_and_outlier_filter_witness :
    (cappedTargets 30 ((List.range 9).map (fun i : ℕ => TrainRow.mk (some ((i : ℚ) + 1)) i)
          ++ [TrainRow.mk (some 100) 9])).length
        = (nonNullRows ((List.range 9).map (fun i : ℕ => TrainRow.mk (some ((i : ℚ) + 1)) i)
          ++ [TrainRow.mk (some 100) 9])).length ∧
    train_model 30 ((List.range 9).map (fun i : ℕ => TrainRow.mk (some ((i : ℚ) + 1)) i)
          ++ [TrainRow.mk (some 100) 9]) = .ok
      ((keptPairs 30 ((List.range 9).map (fun i : ℕ => TrainRow.mk (some ((i : ℚ) + 1)) i)
            ++ [TrainRow.mk (some 100) 9])).map (fun q => q.1),
        (cappedTargets 30 ((List.range 9).map (fun i : ℕ => TrainRow.mk (some ((i : ℚ) + 1)) i)
            ++ [TrainRow.mk (some 100) 9])).filter
          (fun v => decide (iqrLower 30 ((List.range 9).map
                (fun i : ℕ => TrainRow.mk (some ((i : ℚ) + 1)) i)
                ++ [TrainRow.mk (some 100) 9]) ≤ v) &&
              decide (v ≤ iqrUpper 30 ((List.range 9).map
                (fun i : ℕ => TrainRow.mk (some ((i : ℚ) + 1)) i)
                ++ [TrainRow.mk (some 100) 9])))) :=
  capping_and_outlier_filter 30
    ((List.range 9).map (fun i : ℕ => TrainRow.mk (some ((i : ℚ) + 1)) i)
      ++ [TrainRow.mk (some 100) 9])
    (by decide)

/-! ### Lemmas on the registry -/

lemma activeEntries_save (st : RegState) (name path : String) :
    activeEntries (save_model st name path).1 =
      [{ model_id := st.clock + 1, model_name := name, file_path := path,
         updated_at := st.clock + 1, is_active := true }] := by
  unfold activeEntries save_model
  rw [List.filter_append]
  have hkept :
      (((st.entries.map (fun e => { e with is_active := false })).filter
          (fun e => e.model_name ≠ name)).filter (fun e => e.is_active)) = [] := by
    rw [List.filter_eq_nil_iff]
    intro e he
    rw [List.mem_filter] at he
    obtain ⟨a, _, rfl⟩ := List.mem_map.1 he.1
    simp
  rw [hkept]
  simp

/-- The induction invariant for the registry: at most one active row, every
timestamp bounded by the clock, and any active row carrying the greatest
timestamp. -/
def RegInv (st : RegState) : Prop :=
  (activeEntries st).length ≤ 1 ∧
  (∀ e ∈ st.entries, e.updated_at ≤ st.clock) ∧
  (∀ e ∈ st.entries, e.is_active = true →
    ∀ e' ∈ st.entries, e'.updated_at ≤ e.updated_at)

lemma regInv_initial : RegInv initialRegState := by
  refine ⟨?_, ?_, ?_⟩ <;> simp [initialRegState, activeEntries]

lemma mem_save_entries {st : RegState} {name path : String} {e : RegEntry}
    (he : e ∈ (save_model st name path).1.entries) :
    e = { model_id := st.clock + 1, model_name := name, file_path := path,
          updated_at := st.clock + 1, is_active := true }
      ∨ (e.is_active = false ∧ ∃ a ∈ st.entries, e = { a with is_active := false }) := by
  unfold save_model at he
  simp only [List.mem_append, List.mem_singleton] at he
  rcases he with he | he
  · rw [List.mem_filter] at he
    obtain ⟨a, ha, rfl⟩ := List.mem_map.1 he.1
    exact Or.inr ⟨rfl, a, ha, rfl⟩
  · exact Or.inl he

lemma regInv_save (st : RegState) (name path : String) (h : RegInv st) :
    RegInv (save_model st name path).1 := by
  obtain ⟨_, hclock, _⟩ := h
  refine ⟨?_, ?_, ?_⟩
  · rw [activeEntries_save]
    simp
  · intro e he
    rcases mem_save_entries he with rfl | ⟨_, a, ha, rfl⟩
    · simp [save_model]
    · have := hclock a ha
      simp only [save_model]
      omega
  · intro e he hact e' he'
    rcases mem_save_entries he with rfl | ⟨hfalse, _, _, _⟩
    · rcases mem_save_entries he' with rfl | ⟨_, a', ha', rfl⟩
      · exact le_refl _
      · have := hclock a' ha'
        simp only
        omega
    · rw [hfalse] at hact
      exact absurd hact (by simp)

lemma delete_entries_sub {st : RegState} {id : ℕ} {e : RegEntry}
    (he : e ∈ (delete_model st id).1.entries) : e ∈ st.entries := by
  unfold delete_model at he
  split at he
  · exact (List.mem_filter.1 he).1
  · exact he

lemma regInv_delete (st : RegState) (id : ℕ) (h : RegInv st) :
    RegInv (delete_model st id).1 := by
  obtain ⟨hlen, hclock, hmax⟩ := h
  refine ⟨?_, ?_, ?_⟩
  · unfold delete_model
    split
    · refine le_trans (List.Sublist.length_le ?_) hlen
      exact List.Sublist.filter _ (List.filter_sublist _)
    · exact hlen
  · intro e he
    have hmem := delete_entries_sub he
    have hcl : (delete_model st id).1.clock = st.clock := by
      unfold delete_model
      split <;> rfl
    rw [hcl]
    exact hclock e hmem
  · intro e he hact e' he'
    exact hmax e (delete_entries_sub he) hact e' (delete_entries_sub he')

lemma regInv_applyOp (st : RegState) (op : RegOp) (h : RegInv st) :
    RegInv (applyOp st op) := by
  cases op with
  | save n p => exact regInv_save st n p h
  | del i => exact regInv_delete st i h

lemma regInv_foldl : ∀ (ops : List RegOp) (st : RegState),
    RegInv st → RegInv (ops.foldl applyOp st) := by
  intro ops
  induction ops with
  | nil => intro st h; exact h
  | cons op t ih =>
      intro st h
      exact ih (applyOp st op) (regInv_applyOp st op h)

lemma regInv_runOps (ops : List RegOp) : RegInv (runOps ops) :=
  regInv_foldl ops initialRegState regInv_initial

lemma active_delete_sub (st : RegState) (id : ℕ) :
    ∀ e ∈ activeEntries (delete_model st id).1, e ∈ activeEntries st := by
  intro e he
  rw [activeEntries, List.mem_filter] at he ⊢
  exact ⟨delete_entries_sub he.1, he.2⟩

/-! ### Claim theorem — registry single-active invariant (C5) -/

/-- C5: after any sequence of registry operations at most one entry is
active and an active entry carries the greatest update timestamp; after a
sequence ending in a save, the single active entry is exactly the entry
written by that last save; a fresh registry has no active entry; and deleting
never makes an entry active that was not active before, so a zero-active
state is reachable and valid. -/
theorem single_active_invariant :
    (∀ ops : List RegOp,
      (activeEntries (runOps ops)).length ≤ 1 ∧
      ∀ e ∈ (runOps ops).entries, e.is_active = true →
        ∀ e' ∈ (runOps ops).entries, e'.updated_at ≤ e.updated_at) ∧
    (∀ (ops : List RegOp) (n p : String),
      activeEntries (runOps (ops ++ [RegOp.save n p])) =
        [{ model_id := (runOps ops).clock + 1, model_name := n, file_path := p,
           updated_at := (runOps ops).clock + 1, is_active := true }]) ∧
    activeEntries (runOps []) = [] ∧
    (∀ (st : RegState) (id : ℕ),
      ∀ e ∈ activeEntries (delete_model st id).1, e ∈ activeEntries st) := by
  refine ⟨?_, ?_, rfl, active_delete_sub⟩
  · intro ops
    obtain ⟨h1, _, h3⟩ := regInv_runOps ops
    exact ⟨h1, h3⟩
  · intro ops n p
    rw [runOps, List.foldl_append]
    exact activeEntries_save _ n p

/-- Witness for C5 on a concrete operation sequence: two saves then a delete
of the second entry, leaving zero active entries; and a sequence ending in a
save, whose single active entry is the last-saved one. -/
theorem single_active_invariant_witness :
    (activeEntries (runOps [RegOp.save "a" "pa", RegOp.save "b" "pb", RegOp.del 2])).length ≤ 1 ∧
    activeEntries (runOps ([RegOp.save "a" "pa"] ++ [RegOp.save "b" "pb"])) =
      [{ model_id := (runOps [RegOp.save "a" "pa"]).clock + 1, model_name := "b",
         file_path := "pb", updated_at := (runOps [RegOp.save "a" "pa"]).clock + 1,
         is_active := true }] ∧
    ({ model_id := 1, model_name := "a", file_path := "pa", updated_at := 1,
       is_active := true } : RegEntry) ∈
      activeEntries (runOps [RegOp.save "a" "pa"]) :=
  ⟨(single_active_invariant.1 [RegOp.save "a" "pa", RegOp.save "b" "pb", RegOp.del 2]).1,
   single_active_invariant.2.1 [RegOp.save "a" "pa"] "b" "pb",
   single_active_invariant.2.2.2 (runOps [RegOp.save "a" "pa"]) 7
     { model_id := 1, model_name := "a", file_path := "pa", updated_at := 1,
       is_active := true } (by decide)⟩

/-! ### Lemmas on `get_active_model` -/

lemma pickLatest_mem : ∀ (l : List RegEntry) (e : RegEntry),
    pickLatest l = some e → e ∈ l := by
  intro l
  induction l with
  | nil =>
      intro e h
      simp [pickLatest] at h
  | cons a t ih =>
      intro e h
      cases hp : pickLatest t with
      | none =>
          simp only [pickLatest, hp] at h
          rw [Option.some_inj] at h
          subst h
          exact List.mem_cons_self a t
      | some b =>
          simp only [pickLatest, hp] at h
          by_cases hab : a.updated_at < b.updated_at
          · rw [if_pos hab, Option.some_inj] at h
            subst h
            exact List.mem_cons_of_mem a (ih b hp)
          · rw [if_neg hab, Option.some_inj] at h
            subst h
            exact List.mem_cons_self a t

lemma pickLatest_eq_none : ∀ l : List RegEntry, pickLatest l = none → l = [] := by
  intro l
  cases l with
  | nil => intro _; rfl
  | cons a t =>
      intro h
      exfalso
      cases hp : pickLatest t with
      | none =>
          simp only [pickLatest, hp] at h
          exact Option.noConfusion h
      | some b =>
          simp only [pickLatest, hp] at h
          by_cases hab : a.updated_at < b.updated_at
          · rw [if_pos hab] at h
            exact Option.noConfusion h
          · rw [if_neg hab] at h
            exact Option.noConfusion h

lemma pickLatest_ge : ∀ (l : List RegEntry) (e : RegEntry),
    pickLatest l = some e → ∀ x ∈ l, x.updated_at ≤ e.updated_at := by
  intro l
  induction l with
  | nil =>
      intro e h
      simp [pickLatest] at h
  | cons a t ih =>
      intro e h x hx
      cases hp : pickLatest t with
      | none =>
          have ht := pickLatest_eq_none t hp
          subst ht
          simp only [pickLatest] at h
          rw [Option.some_inj] at h
          subst h
          rcases List.mem_cons.1 hx with rfl | hxt
          · exact le_refl _
          · exact absurd hxt (List.not_mem_nil x)
      | some b =>
          simp only [pickLatest, hp] at h
          by_cases hab : a.updated_at < b.updated_at
          · rw [if_pos hab, Option.some_inj] at h
            subst h
            rcases List.mem_cons.1 hx with rfl | hxt
            · exact le_of_lt hab
            · exact ih b hp x hxt
          · rw [if_neg hab, Option.some_inj] at h
            subst h
            rcases List.mem_cons.1 hx with rfl | hxt
            · exact le_refl _
            · exact le_trans (ih b hp x hxt) (le_of_not_lt hab)

lemma get_active_model_spec (st : RegState) (e : RegEntry)
    (h : get_active_model st = some e) :
    e ∈ st.entries ∧ e.is_active = true ∧
      ∀ e' ∈ st.entries, e'.is_active = true → e'.updated_at ≤ e.updated_at := by
  unfold get_active_model at h
  have hmem := pickLatest_mem _ e h
  have hge := pickLatest_ge _ e h
  rw [activeEntries, List.mem_filter] at hmem
  refine ⟨hmem.1, by simpa using hmem.2, ?_⟩
  intro e' he' hact
  exact hge e' (List.mem_filter.2 ⟨he', by simpa using hact⟩)

lemma load_model_no_active (st : OrchState)
    (h : get_active_model st.registry = none) :
    load_model st none = (st, some LoadErr.noActiveModel) := by
  simp [load_model, h]

lemma load_model_with_active (st : OrchState) (e : RegEntry)
    (h : get_active_model st.registry = some e) :
    load_model st none =
      ({ st with loaded_path := some e.file_path, is_model_trained := true }, none) := by
  simp [load_model, h]

lemma train_model_op_of_ok (st : OrchState) (limit : ℚ) (df : List TrainRow)
    (res : List ℕ × List ℚ) (h : train_model limit df = .ok res) :
    train_model_op st limit df = ({ st with is_model_trained := true }, none) := by
  simp [train_model_op, h]

lemma train_model_op_of_error (st : OrchState) (limit : ℚ) (df : List TrainRow)
    (e : TrainError) (h : train_model limit df = .error e) :
    train_model_op st limit df = (st, some e) := by
  simp [train_model_op, h]

/-! ### Claim theorems — orchestrator -/

/-- C9: calling `load_model` with no file reference when the registry holds
no active entry raises `NoActiveModelError` and leaves the orchestrator state
unchanged; with an active entry present it loads the artifact path referenced
by an active entry carrying the most recent update timestamp and sets the
trained flag. -/
theorem load_model_active (st : OrchState) :
    (get_active_model st.registry = none →
      load_model st none = (st, some LoadErr.noActiveModel)) ∧
    (∀ e, get_active_model st.registry = some e →
      load_model st none =
        ({ st with loaded_path := some e.file_path, is_model_trained := true }, none) ∧
      e ∈ st.registry.entries ∧ e.is_active = true ∧
      ∀ e' ∈ st.registry.entries, e'.is_active = true →
        e'.updated_at ≤ e.updated_at) := by
  constructor
  · exact load_model_no_active st
  · intro e h
    obtain ⟨hmem, hact, hmax⟩ := get_active_model_spec st.registry e h
    exact ⟨load_model_with_active st e h, hmem, hact, hmax⟩

/-- Witness for C9: the empty registry yields the no-active-model error with
the state unchanged; a registry whose single entry is active yields a load of
its file path. -/
theorem load_model_active_witness :
    (load_model (OrchState.mk (RegState.mk [] 0) false none) none =
      (OrchState.mk (RegState.mk [] 0) false none, some LoadErr.noActiveModel)) ∧
    load_model
        (OrchState.mk (RegState.mk [RegEntry.mk 1 "m" "path.pkl" 1 true] 1) false none) none =
      (OrchState.mk (RegState.mk [RegEntry.mk 1 "m" "path.pkl" 1 true] 1) true
        (some "path.pkl"), none) :=
  ⟨(load_model_active (OrchState.mk (RegState.mk [] 0) false none)).1 rfl,
   ((load_model_active
      (OrchState.mk (RegState.mk [RegEntry.mk 1 "m" "path.pkl" 1 true] 1) false none)).2
      (RegEntry.mk 1 "m" "path.pkl" 1 true) rfl).1⟩

/-- C10: calling the orchestrator's predict operation with the trained-model
flag unset always raises the not-trained error and returns no corrected
table; any state produced by a successful train or a successful load has the
flag set, so predict on it returns the corrected table instead of raising
that error. -/
theorem predict_requires_trained (st : OrchState) (limit : ℚ) (model : ℕ → ℚ)
    (table : List PredRow) :
    (st.is_model_trained = false →
      predict_effort_expenses st limit model table = .error .modelNotTrained) ∧
    (∀ (limit2 : ℚ) (df : List TrainRow) (st2 : OrchState),
      train_model_op st limit2 df = (st2, none) →
      predict_effort_expenses st2 limit model table = .ok (predict limit model table)) ∧
    (∀ (fp : Option String) (st2 : OrchState),
      load_model st fp = (st2, none) →
      predict_effort_expenses st2 limit model table = .ok (predict limit model table)) := by
  refine ⟨?_, ?_, ?_⟩
  · intro h
    simp [predict_effort_expenses, h]
  · intro limit2 df st2 h
    cases htr : train_model limit2 df with
    | ok res =>
        rw [train_model_op_of_ok st limit2 df res htr] at h
        injection h with h1 h2
        rw [← h1]
        simp [predict_effort_expenses]
    | error e =>
        rw [train_model_op_of_error st limit2 df e htr] at h
        injection h with h1 h2
        exact absurd h2 (by simp)
  · intro fp st2 h
    cases fp with
    | some f =>
        have hs : load_model st (some f) =
            ({ st with loaded_path := some f, is_model_trained := true }, none) := rfl
        rw [hs] at h
        injection h with h1 h2
        rw [← h1]
        simp [predict_effort_expenses]
    | none =>
        cases hg : get_active_model st.registry with
        | some e =>
            rw [load_model_with_active st e hg] at h
            injection h with h1 h2
            rw [← h1]
            simp [predict_effort_expenses]
        | none =>
            rw [load_model_no_active st hg] at h
            injection h with h1 h2
            exact absurd h2 (by simp)

/-- Witness for C10: on a fresh untrained orchestrator predict raises; after
a successful training call on ten valid rows it returns the corrected
table. -/
theorem predict_requires_trained_witness :
    (predict_effort_expenses (OrchState.mk (RegState.mk [] 0) false none) 30
        (fun _ => 0) [] = .error .modelNotTrained) ∧
    predict_effort_expenses (OrchState.mk (RegState.mk [] 0) true none) 30
        (fun _ => 0) [PredRow.mk (some 45) 0] =
      .ok (predict 30 (fun _ => 0) [PredRow.mk (some 45) 0]) :=
  ⟨(predict_requires_trained (OrchState.mk (RegState.mk [] 0) false none) 30
      (fun _ => 0) []).1 rfl,
   (predict_requires_trained (OrchState.mk (RegState.mk [] 0) false none) 30
      (fun _ => 0) [PredRow.mk (some 45) 0]).2.1 30
      ((List.range 10).map (fun i => TrainRow.mk (some 5) i))
      (OrchState.mk (RegState.mk [] 0) true none) (by decide)⟩

/-! ### Claim theorem — numeric imputation (C4) -/

/-- C4: contrary to the requirement that prediction-time imputation reuse the
median captured at training time, `prepare_features` fills missing numeric
cells with the median recomputed over the table currently being processed.
Concretely: a training-time column `[1, 2, 3]` has median `2`, yet running
the imputation on the prediction-time column `[10, null]` fills the null
with `10`, the current batch's median, which differs from `2`. -/
theorem imputation_recomputes_batch_median :
    fillna_median [some 10, none] = [some 10, some 10] ∧
    pandasMedian ([some (1 : ℚ), some 2, some 3].filterMap id) = some 2 ∧
    (10 : ℚ) ≠ 2 := by
  refine ⟨by decide, by decide, by norm_num⟩

end EffortSystem